import Mathlib

/-!
Verification development for `gather_modules.py`, a tool that aggregates
antiSMASH result directories into a single module-visualisation web page.

The Python source is shallowly embedded: JSON values become the `Json`
inductive, Python dictionaries become association lists in insertion order,
exceptions become an explicit `Err` sum threaded through `Except`, and each
function of the source file becomes a Lean definition of the same name.
`json.loads` / `json.load` (standard library, not part of the repository)
are abstracted as a parameter `loads` where the value parsed matters, and
input files are modelled post-parse where it does not.
-/

/-- A JSON value as produced by Python's `json` module.  Python `None` and
JSON `null` coincide (`json.loads` maps `null` to `None`), so a single
constructor models both.  Numbers are modelled as integers; no claim of the
specification involves floating-point payloads. -/
inductive Json where
  | null
  | bool (b : Bool)
  | num (n : Int)
  | str (s : String)
  | arr (xs : List Json)
  | obj (kvs : List (String × Json))

/-- Python exceptions that the source can raise, by class.  `InputError`
is the source's own subclass of `Exception`; `ValueError` covers both the
explicit `raise ValueError` and `json` decode errors (a subclass of
`ValueError` in Python). -/
inductive Err where
  | inputError (msg : String)
  | valueError (msg : String)
  | keyError (key : String)
  | typeError (msg : String)
  | attributeError (msg : String)
  | indexError
  | osError (msg : String)
deriving DecidableEq, Repr

/-- Hashable scalar values, the only `Json` values Python may use as
`dict`/`set` keys: using a list or dict as a key raises `TypeError`.
(Python's cross-type numeric equality `True == 1` is not modelled; no claim
involves a results file mixing boolean and integer record identifiers.) -/
inductive PyKey where
  | null
  | bool (b : Bool)
  | num (n : Int)
  | str (s : String)
deriving DecidableEq, Repr

/-- The `Json` value a `PyKey` came from. -/
def PyKey.toJson : PyKey → Json
  | .null => Json.null
  | .bool b => Json.bool b
  | .num n => Json.num n
  | .str s => Json.str s

/-- Hashing a `Json` value as a dict/set key: scalars are hashable,
containers raise `TypeError` (Python: unhashable type). -/
def toKey : Json → Except Err PyKey
  | .null => .ok .null
  | .bool b => .ok (.bool b)
  | .num n => .ok (.num n)
  | .str s => .ok (.str s)
  | .arr _ => .error (.typeError "unhashable type: list")
  | .obj _ => .error (.typeError "unhashable type: dict")

/-- Total companion of `toKey` used in specification statements. -/
def okKey : Json → Option PyKey
  | .null => some .null
  | .bool b => some (.bool b)
  | .num n => some (.num n)
  | .str s => some (.str s)
  | .arr _ => none
  | .obj _ => none

/-- Python truthiness of a value: `None`, `False`, `0`, `""`, `[]` and
`{}` are falsy, everything else truthy. -/
def truthy : Json → Bool
  | .null => false
  | .bool b => b
  | .num n => n != 0
  | .str s => !s.isEmpty
  | .arr xs => !xs.isEmpty
  | .obj kvs => !kvs.isEmpty

/-- First-match lookup in an association list with string keys (Python
dicts built by `json` have unique keys, for which first-match agrees with
dict lookup). -/
def lookupJ {α : Type} (kvs : List (String × α)) (k : String) : Option α :=
  match kvs with
  | [] => none
  | (k', v) :: rest => if k' = k then some v else lookupJ rest k

/-- Python `d[k] = v` on an insertion-ordered dict: an existing key keeps
its position and gets the new value, a new key is appended. -/
def dictInsert {κ α : Type} [DecidableEq κ] (d : List (κ × α)) (k : κ) (v : α) :
    List (κ × α) :=
  match d with
  | [] => [(k, v)]
  | (k', v') :: rest => if k' = k then (k', v) :: rest else (k', v') :: dictInsert rest k v

mutual

/-- Python `repr()` of a value.  Scalars follow Python exactly; containers
follow Python `repr` except that escape sequences inside nested strings are
not reproduced (no claim renders a container or a string needing escapes). -/
def pyRepr : Json → String
  | .null => "None"
  | .bool b => if b then "True" else "False"
  | .num n => toString n
  | .str s => "\x27" ++ s ++ "\x27"
  | .arr xs => "[" ++ pyReprItems xs ++ "]"
  | .obj kvs => "\x7b" ++ pyReprPairs kvs ++ "\x7d"

/-- `repr` of list elements, comma separated. -/
def pyReprItems : List Json → String
  | [] => ""
  | [x] => pyRepr x
  | x :: y :: xs => pyRepr x ++ ", " ++ pyReprItems (y :: xs)

/-- `repr` of dict entries, comma separated. -/
def pyReprPairs : List (String × Json) → String
  | [] => ""
  | [(k, v)] => "\x27" ++ k ++ "\x27: " ++ pyRepr v
  | (k, v) :: kv :: kvs => "\x27" ++ k ++ "\x27: " ++ pyRepr v ++ ", " ++ pyReprPairs (kv :: kvs)

end

/-- Python `str()` of a value, as used in f-string interpolation: like
`repr` but an outermost string is rendered without quotes. -/
def pyStr : Json → String
  | .str s => s
  | j => pyRepr j

/-- `str()` of a hashable key value. -/
def pyStrKey (k : PyKey) : String := pyStr k.toJson

/-! ## Area Extractor (`get_areas`, gather_modules.py lines 50-71) -/

/-- `d.get(key, default)` on a value expected to be a dict: attribute
access on a non-dict raises `AttributeError`. -/
def pyGetD (j : Json) (k : String) (dflt : Json) : Except Err Json :=
  match j with
  | .obj kvs => .ok ((lookupJ kvs k).getD dflt)
  | _ => .error (.attributeError "get")

/-- `d[key]` subscripting with a string key: `KeyError` when the key is
absent from a dict, `TypeError` when the value is not a dict (Python:
list indices / string indices must be integers). -/
def pyGetItem (j : Json) (k : String) : Except Err Json :=
  match j with
  | .obj kvs =>
      match lookupJ kvs k with
      | some v => .ok v
      | none => .error (.keyError k)
  | _ => .error (.typeError "indices must be integers")

/-- Iterating a value in a `for` loop: lists yield elements, strings yield
one-character strings, dicts yield their keys, scalars raise `TypeError`. -/
def pyIterate : Json → Except Err (List Json)
  | .arr xs => .ok xs
  | .str s => .ok (s.data.map (fun c => .str c.toString))
  | .obj kvs => .ok (kvs.map (fun kv => .str kv.1))
  | _ => .error (.typeError "object is not iterable")

/-- Python chained comparison `lo <= j <= hi` for integer bounds: numbers
compare by value, booleans as 0/1, anything else raises `TypeError`
(already on the first comparison, so short-circuiting changes nothing). -/
def pyChainedLe (lo : Int) (j : Json) (hi : Int) : Except Err Bool :=
  match j with
  | .num n => .ok (decide (lo ≤ n ∧ n ≤ hi))
  | .bool b => .ok (decide (lo ≤ (if b then (1 : Int) else 0) ∧ (if b then (1 : Int) else 0) ≤ hi))
  | _ => .error (.typeError "not supported between instances")

/-- One flattened area entry: the Python dict
`{"name": record["id"], "start": ..., "end": ..., "products": ...}`. -/
structure AreaEntry where
  name : Json
  start : Json
  end_ : Json
  products : Json

/-- The anchor synthesized for record index `i` and area index `j`
(0-based), the Python f-string `f"r{r_index + 1}c{c_index + 1}"`. -/
def anchorStr (i j : Nat) : String :=
  "r" ++ toString (i + 1) ++ "c" ++ toString (j + 1)

/-- Inner loop of `get_areas`: `for c_index, area in enumerate(record["areas"])`,
storing each area dict under its anchor.  The dict literal's values are
evaluated left to right, so a missing `id` is reported before a missing
`start`, and only when the record has at least one area. -/
def get_areas_inner (record : Json) (areas : List Json) (r_index c_index : Nat)
    (acc : List (String × AreaEntry)) : Except Err (List (String × AreaEntry)) :=
  match areas with
  | [] => .ok acc
  | area :: rest => do
    let idJ ← pyGetItem record "id"
    let startJ ← pyGetItem area "start"
    let endJ ← pyGetItem area "end"
    let productsJ ← pyGetItem area "products"
    get_areas_inner record rest r_index (c_index + 1)
      (dictInsert acc (anchorStr r_index c_index) ⟨idJ, startJ, endJ, productsJ⟩)

/-- Outer loop of `get_areas`: `for r_index, record in enumerate(full_results["records"])`. -/
def get_areas_loop (records : List Json) (r_index : Nat)
    (acc : List (String × AreaEntry)) : Except Err (List (String × AreaEntry)) :=
  match records with
  | [] => .ok acc
  | record :: rest => do
    let areasJ ← pyGetItem record "areas"
    let areaList ← pyIterate areasJ
    let acc' ← get_areas_inner record areaList r_index 0 acc
    get_areas_loop rest (r_index + 1) acc'

/-- `get_areas` (lines 50-71): validates the schema version, then flattens
all areas of all records into a dict keyed by positional anchor.  The
document is the already-parsed value handed back by `json.load`. -/
def get_areas (doc : Json) : Except Err (List (String × AreaEntry)) := do
  let schema ← pyGetD doc "schema" (Json.num 0)
  let ok ← pyChainedLe 2 schema 3
  if ok then do
    let records ← pyGetItem doc "records"
    let recordList ← pyIterate records
    get_areas_loop recordList 0 []
  else
    .error (.inputError ("incompatible antiSMASH results file schema version: " ++ pyStr schema))

/-! ## Bubble-Data Extractor (`extract_bubble_data`, gather_modules.py lines 74-103) -/

/-- `VISUALISER_ROOT` (line 14). -/
def VISUALISER_ROOT : String := "antismash.outputs.html.visualisers"

/-- Python `s.startswith(p)`. -/
def pyStartsWith (s p : String) : Bool :=
  p.data.isPrefixOf s.data

/-- Characters stripped by Python `str.rstrip()` with no argument (the
ASCII whitespace set; exotic Unicode space characters are not modelled). -/
def pyIsSpace (c : Char) : Bool :=
  c = ' ' || c = '\t' || c = '\n' || c = '\x0d' || c = '\x0b' || c = '\x0c'

/-- Python `s.rstrip()`: drop trailing whitespace. -/
def pyRstripWs (s : String) : String :=
  String.mk (s.data.reverse.dropWhile pyIsSpace).reverse

/-- Python `s.rstrip(";")`: drop every trailing semicolon. -/
def pyRstripSemis (s : String) : String :=
  String.mk (s.data.reverse.dropWhile (· = ';')).reverse

/-- Python `s.replace(old, new)` on character lists: replace all
non-overlapping occurrences left to right.  The recursion is fuelled by the
input length; the fuel suffices for every nonempty pattern, and the only
patterns used (`"var resultsData = "` and `"."`) are nonempty. -/
def pyReplaceAux (pat rep : List Char) : Nat → List Char → List Char
  | _, [] => []
  | 0, s => s
  | fuel + 1, c :: cs =>
      if pat.isPrefixOf (c :: cs) then rep ++ pyReplaceAux pat rep fuel (List.drop pat.length (c :: cs))
      else c :: pyReplaceAux pat rep fuel cs

/-- Python `s.replace(old, new)`. -/
def pyReplace (s pat rep : String) : String :=
  String.mk (pyReplaceAux pat.data rep.data s.data.length s.data)

/-- The first `while` loop of `extract_bubble_data` (lines 85-89): skip
lines until one starts with `"var resultsData ="`; reaching the end of the
stream raises `ValueError`.  Returns the remaining lines with the
assignment text removed from the marker line (line 91's `replace`). -/
def findMarker : List String → Except Err (List String)
  | [] => .error (.valueError "Javascript data does not contain relevant results")
  | l :: rest =>
      if pyStartsWith l "var resultsData =" then
        .ok (pyReplace l "var resultsData = " "" :: rest)
      else findMarker rest

/-- The second `while` loop (lines 92-94): collect lines up to, not
including, the next line starting with `"var "` (the replaced marker line
itself included and also tested). -/
def collectSection : List String → List String
  | [] => []
  | l :: rest => if pyStartsWith l "var " then [] else l :: collectSection rest

/-- The text handed to `json.loads` (line 98): the collected lines joined
by single spaces, with trailing whitespace and then trailing semicolons
stripped. -/
def relevantText (lines : List String) : Except Err String :=
  (findMarker lines).map
    (fun ls => pyRstripSemis (pyRstripWs (String.intercalate " " (collectSection ls))))

/-- The loop over `results_data.items()` (lines 100-102): for each anchor,
store `data.get(f"{VISUALISER_ROOT}.bubble_view")` — `None` (here `null`)
when the inner key is absent, `AttributeError` when `data` is not a dict. -/
def buildBubbleData : List (String × Json) → List (String × Json) →
    Except Err (List (String × Json))
  | [], acc => .ok acc
  | (anchor, data) :: rest, acc =>
      match data with
      | .obj inner =>
          buildBubbleData rest
            (dictInsert acc anchor ((lookupJ inner (VISUALISER_ROOT ++ ".bubble_view")).getD .null))
      | _ => .error (.attributeError "get")

/-- The tail of `extract_bubble_data` after `json.loads`: `.items()` on a
non-dict raises `AttributeError`. -/
def extractPayloads (resultsData : Json) : Except Err (List (String × Json)) :=
  match resultsData with
  | .obj kvs => buildBubbleData kvs []
  | _ => .error (.attributeError "items")

/-- `extract_bubble_data` (lines 74-103), parameterised by the `json.loads`
parser, over the `readlines()` result (each line keeps its newline). -/
def extract_bubble_data (loads : String → Except Err Json) (lines : List String) :
    Except Err (List (String × Json)) := do
  let txt ← relevantText lines
  let resultsData ← loads txt
  extractPayloads resultsData

/-! ## Per-directory merge (`gather_from_files`, gather_modules.py lines 106-137) -/

/-- One output area dict after merge: `{"start", "end", "products", "bubbles"}`
in that insertion order (the `name` entry was popped, `bubbles` appended). -/
structure MergedArea where
  start : Json
  end_ : Json
  products : Json
  bubbles : Json

/-- One output record: `{"name": name, "areas": [...]}`. -/
structure MergedRecord where
  name : PyKey
  areas : List MergedArea

/-- `bubble_data.get(anchor)` (line 129): `None` (`null`) when absent. -/
def bubblesLookup (bd : List (String × Json)) (anchor : String) : Json :=
  (lookupJ bd anchor).getD .null

/-- `list(bubbles.values())` (line 132): `.values()` on a non-dict raises
`AttributeError`. -/
def pyDictValues : Json → Except Err (List Json)
  | .obj kvs => .ok (kvs.map (fun kv => kv.2))
  | _ => .error (.attributeError "values")

/-- `[0]` indexing of a list (line 132): `IndexError` when empty. -/
def pyFirst : List Json → Except Err Json
  | [] => .error .indexError
  | v :: _ => .ok v

/-- `records[name]["areas"].append(area)` (line 133): find the record dict
for `name` (`KeyError` if absent, impossible here by construction) and
append the area to its list. -/
def appendArea (recs : List (PyKey × List MergedArea)) (k : PyKey) (a : MergedArea) :
    Except Err (List (PyKey × List MergedArea)) :=
  match recs with
  | [] => .error (.keyError (pyStrKey k))
  | (k', as) :: rest =>
      if k' = k then .ok ((k', as ++ [a]) :: rest)
      else (appendArea rest k a).map (fun r => (k', as) :: r)

/-- `record_names = {area["name"] for area in areas.values()}` (line 125),
deduplicated keeping first occurrences.  CPython iterates a set in a
hash-dependent order; this model fixes first-seen order, and no claim
below depends on the relative order of records. -/
def pyDedup : List PyKey → List PyKey → List PyKey
  | [], acc => acc.reverse
  | k :: rest, acc => if k ∈ acc then pyDedup rest acc else pyDedup rest (k :: acc)

/-- The `for anchor, area in areas.items()` loop (lines 127-133): skip the
area when its bubble payload is falsy, otherwise attach the first variant
value and append to the area's record. -/
def mergeLoop (bd : List (String × Json)) :
    List (String × AreaEntry × PyKey) → List (PyKey × List MergedArea) →
    Except Err (List (PyKey × List MergedArea))
  | [], recs => .ok recs
  | (anchor, area, k) :: rest, recs =>
      if truthy (bubblesLookup bd anchor) then
        match pyDictValues (bubblesLookup bd anchor) with
        | .error e => .error e
        | .ok vals =>
          match pyFirst vals with
          | .error e => .error e
          | .ok first =>
            match appendArea recs k ⟨area.start, area.end_, area.products, first⟩ with
            | .error e => .error e
            | .ok recs' => mergeLoop bd rest recs'
      else mergeLoop bd rest recs

/-- Hash every area's name in insertion order, pairing each entry with its
key (the set construction of line 125 hashes each element; the first
unhashable one raises `TypeError`). -/
def keyNames : List (String × AreaEntry) → Except Err (List (String × AreaEntry × PyKey))
  | [] => .ok []
  | e :: rest => do
    let k ← toKey e.2.name
    let ks ← keyNames rest
    .ok ((e.1, e.2, k) :: ks)

/-- The merge stage of `gather_from_files` (lines 125-137), taking the two
extractors' outputs. -/
def gather_merge (areas : List (String × AreaEntry)) (bd : List (String × Json)) :
    Except Err (List MergedRecord) := do
  let keyed ← keyNames areas
  let names := pyDedup (keyed.map (fun e => e.2.2)) []
  let final ← mergeLoop bd keyed (names.map (fun n => (n, [])))
  .ok ((final.filter (fun r => !r.2.isEmpty)).map (fun r => ⟨r.1, r.2⟩))

/-! ## Page generator (`generate_page`, gather_modules.py lines 153-175) -/

/-- `HTML_TOP` (lines 16-24). -/
def HTML_TOP : String :=
  "\n<html lang=\"en\">\n<head>\n  <meta charset=\"utf-8\" />\n  <title>Collected modules from antiSMASH results</title>\n  <link rel=\"stylesheet\" type=\"text/css\" href=\"style.css\">\n</head>\n<body>\n"

/-- `HTML_BOTTOM` (lines 25-41). -/
def HTML_BOTTOM : String :=
  "\n  <script src=\"custom_antismash.js\"></script>\n  <script src=\"data.js\"></script>\n  <script src=\"jquery.js\"></script>\n  <script>\n    $(document).ready(function() \x7b\n        for (record of data) \x7b\n            for (area of record.areas) \x7b\n                console.log(area.anchor, area.bubbles);\n                viewer[\"actualDrawDomainBubbleData\"](area.anchor, area.bubbles);\n            \x7d\n        \x7d\n    \x7d)\n  </script>\n</body>\n</html>\n"

/-- Hexadecimal digit character (lower case), for JSON string escapes. -/
def hexDigit (n : Nat) : Char :=
  if n < 10 then Char.ofNat (48 + n) else Char.ofNat (87 + n)

/-- Four-digit hexadecimal rendering of `n % 0x10000`. -/
def hex4 (n : Nat) : String :=
  String.mk [hexDigit (n / 4096 % 16), hexDigit (n / 256 % 16), hexDigit (n / 16 % 16), hexDigit (n % 16)]

/-- `\uXXXX` escape of a character, with a surrogate pair beyond the basic
multilingual plane, as produced by `json.dump` with `ensure_ascii` on. -/
def uEscape (c : Char) : String :=
  let n := c.toNat
  if n < 0x10000 then "\\u" ++ hex4 n
  else "\\u" ++ hex4 (0xd800 + (n - 0x10000) / 0x400) ++ "\\u" ++ hex4 (0xdc00 + (n - 0x10000) % 0x400)

/-- How `json.dump` writes one character of a string. -/
def jsonEscapeChar (c : Char) : String :=
  if c = '"' then "\\\""
  else if c = '\\' then "\\\\"
  else if c = '\n' then "\\n"
  else if c = '\t' then "\\t"
  else if c = '\x0d' then "\\r"
  else if c = '\x08' then "\\b"
  else if c = '\x0c' then "\\f"
  else if c.toNat < 0x20 || c.toNat > 0x7e then uEscape c
  else c.toString

/-- A JSON string literal as written by `json.dump`. -/
def jsonQuote (s : String) : String :=
  "\"" ++ String.join (s.data.map jsonEscapeChar) ++ "\""

/-- `indent * level` spaces. -/
def pad (n : Nat) : String := String.mk (List.replicate n ' ')

mutual

/-- `json.dump(value, handle, indent=w)`: the serialized text of a value
sitting at indentation level `lvl`.  With an indent, Python uses item
separator `","` + newline and key separator `": "`; empty containers
print without newlines. -/
def dumpVal (w lvl : Nat) : Json → String
  | .null => "null"
  | .bool b => if b then "true" else "false"
  | .num n => toString n
  | .str s => jsonQuote s
  | .arr [] => "[]"
  | .arr (x :: xs) => "[\n" ++ dumpItems w (lvl + 1) (x :: xs) ++ "\n" ++ pad (w * lvl) ++ "]"
  | .obj [] => "\x7b\x7d"
  | .obj (kv :: kvs) => "\x7b\n" ++ dumpPairs w (lvl + 1) (kv :: kvs) ++ "\n" ++ pad (w * lvl) ++ "\x7d"

/-- List elements, each indented, separated by `",\n"`. -/
def dumpItems (w lvl : Nat) : List Json → String
  | [] => ""
  | [x] => pad (w * lvl) ++ dumpVal w lvl x
  | x :: y :: xs => pad (w * lvl) ++ dumpVal w lvl x ++ ",\n" ++ dumpItems w lvl (y :: xs)

/-- Dict entries, each indented, separated by `",\n"`. -/
def dumpPairs (w lvl : Nat) : List (String × Json) → String
  | [] => ""
  | [(k, v)] => pad (w * lvl) ++ jsonQuote k ++ ": " ++ dumpVal w lvl v
  | (k, v) :: kv :: kvs =>
      pad (w * lvl) ++ jsonQuote k ++ ": " ++ dumpVal w lvl v ++ ",\n" ++ dumpPairs w lvl (kv :: kvs)

end

/-- An area dict after the rendering pass added `area["anchor"]` (line
162); insertion order of the keys is `start`, `end`, `products`,
`bubbles`, `anchor`. -/
structure EnrichedArea where
  start : Json
  end_ : Json
  products : Json
  bubbles : Json
  anchor : String

/-- A record as serialized to `data.js`. -/
structure EnrichedRecord where
  name : PyKey
  areas : List EnrichedArea

/-- The `Json` value of an enriched area, in dict insertion order. -/
def enrichedAreaJson (a : EnrichedArea) : Json :=
  .obj [("start", a.start), ("end", a.end_), ("products", a.products),
        ("bubbles", a.bubbles), ("anchor", .str a.anchor)]

/-- The `Json` value of an enriched record. -/
def enrichedRecordJson (r : EnrichedRecord) : Json :=
  .obj [("name", r.name.toJson), ("areas", .arr (r.areas.map enrichedAreaJson))]

/-- The `Json` value of the full aggregated record list. -/
def enrichedJson (ers : List EnrichedRecord) : Json :=
  .arr (ers.map enrichedRecordJson)

/-- One element of a joined sequence: must be a string. -/
def asStrItem : Json → Except Err String
  | .str s => .ok s
  | _ => .error (.typeError "sequence item: expected str instance")

/-- `sep.join(x)`: joins a list of strings, the characters of a string, or
the (string) keys of a dict; anything else, or a non-string element,
raises `TypeError`. -/
def pyJoinStrs (sep : String) : Json → Except Err String
  | .str s => .ok (String.intercalate sep (s.data.map Char.toString))
  | .arr xs => (xs.mapM asStrItem).map (String.intercalate sep)
  | .obj kvs => .ok (String.intercalate sep (kvs.map (fun kv => kv.1)))
  | _ => .error (.typeError "can only join an iterable")

/-- The body of the rendering loop (lines 161-168) for one area: set
`area["anchor"]` (an `AttributeError` when the record name is not a
string, from `.replace`), then emit the label `div` and the container
`div`.  Returns the HTML text written and the mutated (enriched) area. -/
def processArea (name : PyKey) (a : MergedArea) : Except Err (String × EnrichedArea) := do
  let nameStr ← match name with
    | .str s => Except.ok s
    | _ => Except.error (Err.attributeError "replace")
  let anchor := pyReplace nameStr "." "-" ++ "-" ++ pyStr a.start
  let anchorId := anchor ++ "-domain-bubble-svg-container"
  let style := "font-weight:bold; margin-bottom: -2em; margin-top: 2em;"
  let location := pyStr a.start ++ "-" ++ pyStr a.end_
  let products ← pyJoinStrs ", " a.products
  Except.ok
    ("  <div style=\"" ++ style ++ "\">" ++ pyStrKey name ++ ": " ++ location ++ ": "
        ++ products ++ "</div>" ++ "  <div id=" ++ anchorId ++ "></div>",
     ⟨a.start, a.end_, a.products, a.bubbles, anchor⟩)

/-- The rendering loop over one record's areas, concatenating the HTML
written and collecting the mutated areas. -/
def processAreas (name : PyKey) : List MergedArea → Except Err (String × List EnrichedArea)
  | [] => .ok ("", [])
  | a :: rest => do
    let (h, ea) ← processArea name a
    let (hs, eas) ← processAreas name rest
    .ok (h ++ hs, ea :: eas)

/-- The rendering loop over all records (lines 160-168). -/
def processRecords : List MergedRecord → Except Err (String × List EnrichedRecord)
  | [] => .ok ("", [])
  | r :: rest => do
    let (h, eas) ← processAreas r.name r.areas
    let (hs, ers) ← processRecords rest
    .ok (h ++ hs, ⟨r.name, eas⟩ :: ers)

/-- The two file contents `generate_page` writes (lines 158-173), given
the aggregated record list: `index.html` is `HTML_TOP`, the per-area divs,
`HTML_BOTTOM`; `data.js` is `"var data = "`, then `json.dump(all_results,
handle, indent=1)` — of the list as mutated by the HTML pass — then `";"`.
File-system effects (the writes themselves and the asset copies of lines
174-175) are modelled as the returned strings. -/
def generate_page_strings (all_results : List MergedRecord) : Except Err (String × String) := do
  let (body, enriched) ← processRecords all_results
  .ok (HTML_TOP ++ body ++ HTML_BOTTOM,
       "var data = " ++ dumpVal 1 0 (enrichedJson enriched) ++ ";")

/-! ## Directories, aggregation and the entry point (lines 106-194) -/

/-- One candidate result directory as `gather_from_files` reads it:
`jsonFiles` holds the parsed contents of the `*.json` glob matches in
listing order (`json.load` abstracted as already applied), `regions` the
`readlines()` of `regions.js`, or `none` when opening it raises
`OSError`. -/
structure ResultDir where
  name : String
  jsonFiles : List Json
  regions : Option (List String)

/-- `gather_from_files` (lines 106-137): no `*.json` match raises
`InputError`; the first match is loaded for areas; a missing `regions.js`
raises `OSError`; then the two extractions are merged. -/
def gather_from_files (loads : String → Except Err Json) (d : ResultDir) :
    Except Err (List MergedRecord) :=
  match d.jsonFiles with
  | [] => .error (.inputError ("No results file (\x27*.json\x27) in result directory: " ++ d.name))
  | doc :: _ => do
    let areas ← get_areas doc
    match d.regions with
    | none => .error (.osError ("No such file or directory: " ++ d.name ++ "/regions.js"))
    | some lines => do
      let bd ← extract_bubble_data loads lines
      gather_merge areas bd

/-- The comprehension of line 150: gather each directory in input order
and concatenate, failing fast on the first error. -/
def gatherAll (loads : String → Except Err Json) : List ResultDir →
    Except Err (List MergedRecord)
  | [] => .ok []
  | d :: rest => do
    let rs ← gather_from_files loads d
    let more ← gatherAll loads rest
    .ok (rs ++ more)

/-- `process_all_results` (lines 140-150): an empty directory list raises
`ValueError`; otherwise the per-directory results are concatenated in
input order. -/
def process_all_results (loads : String → Except Err Json) (dirs : List ResultDir) :
    Except Err (List MergedRecord) :=
  match dirs with
  | [] => .error (.valueError "No result directories provided")
  | _ => gatherAll loads dirs

/-- `generate_page` (lines 153-175) end to end: aggregate, then render the
two output files. -/
def generate_page (loads : String → Except Err Json) (dirs : List ResultDir) :
    Except Err (String × String) := do
  let all_results ← process_all_results loads dirs
  generate_page_strings all_results

/-- Which exceptions the `try`/`except` of `_main` (lines 189-193)
catches: `OSError` and `InputError` only. -/
def isCaught : Err → Bool
  | .inputError _ => true
  | .osError _ => true
  | _ => false

/-- `print(err, file=sys.stderr)`: the message of a caught exception. -/
def errText : Err → String
  | .inputError m => m
  | .osError m => m
  | .valueError m => m
  | .keyError k => k
  | .typeError m => m
  | .attributeError m => m
  | .indexError => "list index out of range"

/-- What `_main` produces when it returns: an exit code and the lines
written to the error stream. -/
structure MainOutcome where
  exit : Nat
  errOut : List String
deriving DecidableEq, Repr

/-- `_main` (lines 178-194).  `input` is `none` when the input path is not
a directory, otherwise the `glob(input_dir/*)` listing; `outputOk` is the
`isdir` check after `makedirs`.  The result is `.error e` when an
exception propagates out of `_main` uncaught (the process then terminates
with a traceback), `.ok` when `_main` returns an exit code. -/
def run_main (loads : String → Except Err Json) (input : Option (List ResultDir))
    (inputName : String) (outputOk : Bool) : Except Err MainOutcome :=
  match input with
  | none => .ok ⟨1, ["Input is not a directory: " ++ inputName]⟩
  | some dirs =>
    if !outputOk then .ok ⟨1, ["Input is not a directory: " ++ inputName]⟩
    else
      match generate_page loads dirs with
      | .ok _ => .ok ⟨0, []⟩
      | .error e => if isCaught e then .ok ⟨1, [errText e]⟩ else .error e

/-! ## Input builders and specification-side definitions

`mkDoc` spans the well-formed results documents of the specification's
data model (§3/§6): a top-level dict with integer `schema` and a `records`
list of dicts with `id` and `areas`. -/

/-- One area of a results document; the field values are arbitrary JSON
(the source copies them without validation). -/
structure AreaData where
  start : Json
  end_ : Json
  products : Json

/-- One record of a results document. -/
structure RecordData where
  id : Json
  areas : List AreaData

/-- The JSON dict of one area. -/
def areaJson (a : AreaData) : Json :=
  .obj [("start", a.start), ("end", a.end_), ("products", a.products)]

/-- The JSON dict of one record. -/
def recordJson (r : RecordData) : Json :=
  .obj [("id", r.id), ("areas", .arr (r.areas.map areaJson))]

/-- A well-formed results document with the given schema version. -/
def mkDoc (schema : Int) (recs : List RecordData) : Json :=
  .obj [("schema", .num schema), ("records", .arr (recs.map recordJson))]

/-- The flattened area dict `get_areas` builds for one record's areas,
starting at record index `i`, area index `j`. -/
def mkRow (id : Json) : List AreaData → Nat → Nat → List (String × AreaEntry)
  | [], _, _ => []
  | a :: rest, i, j => (anchorStr i j, ⟨id, a.start, a.end_, a.products⟩) :: mkRow id rest i (j + 1)

/-- The flattened area dict `get_areas` builds for a record list starting
at record index `i`. -/
def mkRows : List RecordData → Nat → List (String × AreaEntry)
  | [], _ => []
  | r :: rest, i => mkRow r.id r.areas i 0 ++ mkRows rest (i + 1)

/-- The anchor strings of one record at index `i` for `n` areas starting
at area index `j`. -/
def anchorRow (i : Nat) : Nat → Nat → List String
  | 0, _ => []
  | n + 1, j => anchorStr i j :: anchorRow i n (j + 1)

/-- The anchor strings for records of the given area counts, starting at
record index `i`: purely a function of the shape. -/
def anchorsFrom : List Nat → Nat → List String
  | [], _ => []
  | n :: rest, i => anchorRow i n 0 ++ anchorsFrom rest (i + 1)

/-- The dict `get_areas` actually accumulates for one record's areas, by
repeated `dict` assignment into `acc`. -/
def insRow (id : Json) : List AreaData → Nat → Nat → List (String × AreaEntry) →
    List (String × AreaEntry)
  | [], _, _, acc => acc
  | a :: rest, i, j, acc =>
      insRow id rest i (j + 1) (dictInsert acc (anchorStr i j) ⟨id, a.start, a.end_, a.products⟩)

/-- The dict `get_areas` actually accumulates over a record list. -/
def insRows : List RecordData → Nat → List (String × AreaEntry) → List (String × AreaEntry)
  | [], _, acc => acc
  | r :: rest, i, acc => insRows rest (i + 1) (insRow r.id r.areas i 0 acc)

/-- The keys of an extraction result (`[]` for an error). -/
def keysOf (r : Except Err (List (String × AreaEntry))) : List String :=
  match r with
  | .ok l => l.map (fun e => e.1)
  | .error _ => []

/-- The first value of a dict, `null` for anything else — the total
companion of `list(bubbles.values())[0]` used in statements. -/
def firstVal : Json → Json
  | .obj ((_, v) :: _) => v
  | _ => .null

/-- Whether a merge input area belongs to record name `n` and survives the
falsy-payload guard of lines 129-131. -/
def keptPred (bd : List (String × Json)) (n : PyKey) (e : String × AreaEntry) : Bool :=
  decide (okKey e.2.name = some n) && truthy (bubblesLookup bd e.1)

/-- The area dicts that the merge is specified to emit for record name
`n`: the surviving areas in input order, each with `bubbles` set to the
first variant value of its payload. -/
def keptAreas (areas : List (String × AreaEntry)) (bd : List (String × Json)) (n : PyKey) :
    List MergedArea :=
  (areas.filter (keptPred bd n)).map
    (fun e => ⟨e.2.start, e.2.end_, e.2.products, firstVal (bubblesLookup bd e.1)⟩)

/-- The number of areas of record name `n` with truthy bubble payloads. -/
def keptCount (areas : List (String × AreaEntry)) (bd : List (String × Json)) (n : PyKey) : Nat :=
  (keptAreas areas bd n).length

/-- Whether a pipeline stage failed with `IndexError`. -/
def isIndexError {α : Type} : Except Err α → Bool
  | .error .indexError => true
  | _ => false

/-- A trivial parser stand-in for counterexamples whose inputs never reach
`json.loads`. -/
def constLoads : String → Except Err Json := fun _ => .ok .null

/-! ## Elementary facts about the embedding monad and dictionaries -/

/-- `bind` on a successful `Except` step. -/
@[simp] theorem exBind_ok {α β : Type} (a : α) (f : α → Except Err β) :
    (Except.ok a >>= f) = f a := rfl

/-- `bind` on a failed `Except` step. -/
@[simp] theorem exBind_error {α β : Type} (e : Err) (f : α → Except Err β) :
    ((Except.error e : Except Err α) >>= f) = .error e := rfl

/-- `pure` in the embedding monad. -/
@[simp] theorem exPure_eq {α : Type} (a : α) : (pure a : Except Err α) = .ok a := rfl

/-- `map` on a successful `Except` step. -/
@[simp] theorem exMap_ok {α β : Type} (a : α) (f : α → β) :
    (Except.ok a : Except Err α).map f = .ok (f a) := rfl

/-- `map` on a failed `Except` step. -/
@[simp] theorem exMap_error {α β : Type} (e : Err) (f : α → β) :
    (Except.error e : Except Err α).map f = .error e := rfl

/-- `toKey` succeeds exactly as `okKey` does. -/
theorem toKey_eq_ok {j : Json} {k : PyKey} : toKey j = .ok k ↔ okKey j = some k := by
  cases j <;> simp [toKey, okKey]

/-- Total key of a name, for statements (agrees with `toKey` on success). -/
def forceKey (j : Json) : PyKey := (okKey j).getD .null

/-- `pyDedup` produces a duplicate-free list from a duplicate-free
accumulator. -/
theorem pyDedup_nodup : ∀ (l acc : List PyKey), acc.Nodup → (pyDedup l acc).Nodup
  | [], acc, h => by simpa [pyDedup] using (List.nodup_reverse.mpr h)
  | k :: rest, acc, h => by
      by_cases hk : k ∈ acc
      · simpa [pyDedup, hk] using pyDedup_nodup rest acc h
      · simpa [pyDedup, hk] using pyDedup_nodup rest (k :: acc) (by simp [h, hk])

/-- Membership in `pyDedup`. -/
theorem pyDedup_mem : ∀ (l acc : List PyKey) (x : PyKey),
    x ∈ pyDedup l acc ↔ x ∈ acc ∨ x ∈ l
  | [], acc, x => by simp [pyDedup]
  | k :: rest, acc, x => by
      by_cases hk : k ∈ acc
      · rw [pyDedup, if_pos hk, pyDedup_mem rest acc x]
        constructor
        · rintro (h | h)
          · exact Or.inl h
          · exact Or.inr (List.mem_cons_of_mem _ h)
        · rintro (h | h)
          · exact Or.inl h
          · rcases List.mem_cons.mp h with rfl | h
            · exact Or.inl hk
            · exact Or.inr h
      · rw [pyDedup, if_neg hk, pyDedup_mem rest (k :: acc) x]
        constructor
        · rintro (h | h)
          · rcases List.mem_cons.mp h with rfl | h
            · exact Or.inr (List.mem_cons_self _ _)
            · exact Or.inl h
          · exact Or.inr (List.mem_cons_of_mem _ h)
        · rintro (h | h)
          · exact Or.inl (List.mem_cons_of_mem _ h)
          · rcases List.mem_cons.mp h with rfl | h
            · exact Or.inl (List.mem_cons_self _ _)
            · exact Or.inr h

/-- A filter keeping a single key yields that key or nothing, on a
duplicate-free list. -/
theorem filter_key_nodup (p : PyKey → Bool) (n : PyKey) :
    ∀ (l : List PyKey), l.Nodup →
      l.filter (fun m => decide (m = n) && p m) =
        if n ∈ l ∧ p n = true then [n] else []
  | [], _ => by simp
  | a :: rest, h => by
      obtain ⟨ha, hrest⟩ := List.nodup_cons.mp h
      rw [List.filter_cons]
      by_cases han : a = n
      · subst han
        have hrf : rest.filter (fun m => decide (m = a) && p m) = [] :=
          List.filter_eq_nil_iff.mpr (fun m hm => by
            simp only [Bool.and_eq_true, decide_eq_true_eq, not_and]
            intro hma
            exact absurd (hma ▸ hm) ha)
        by_cases hp : p a = true
        · simp [hp, hrf]
        · simp [hp, hrf, filter_key_nodup p a rest hrest, ha]
      · have hna : n ≠ a := Ne.symm han
        have : (decide (a = n) && p a) = false := by simp [han]
        rw [this, if_neg (by simp)]
        rw [filter_key_nodup p n rest hrest]
        by_cases hn : n ∈ rest
        · simp [hn, hna]
        · simp [hn, hna]


/-! ## Characterising the per-directory merge -/

/-- A targeted update that misses every key is the identity map. -/
theorem map_if_id {α : Type} (l : List (PyKey × α)) (k : PyKey) (f : PyKey × α → PyKey × α)
    (h : ∀ p ∈ l, p.1 ≠ k) :
    l.map (fun p => if p.1 = k then f p else p) = l := by
  induction l with
  | nil => rfl
  | cons p rest ih =>
      rw [List.map_cons, if_neg (h p (List.mem_cons_self p rest)),
        ih (fun q hq => h q (List.mem_cons_of_mem p hq))]

/-- A successful `appendArea` on a duplicate-free record dict appends the
area at exactly the matching name. -/
theorem appendArea_ok : ∀ {recs : List (PyKey × List MergedArea)} {k : PyKey}
    {a : MergedArea} {recs' : List (PyKey × List MergedArea)},
    appendArea recs k a = .ok recs' → (recs.map Prod.fst).Nodup →
    recs' = recs.map (fun p => if p.1 = k then (p.1, p.2 ++ [a]) else p)
  | [], _, _, _, h, _ => by simp [appendArea] at h
  | (k', as) :: rest, k, a, recs', h, hnd => by
      have hnd' : (k' :: rest.map Prod.fst).Nodup := by simpa using hnd
      obtain ⟨hk', hrest⟩ := List.nodup_cons.mp hnd'
      by_cases hkk : k' = k
      · subst hkk
        rw [appendArea, if_pos rfl] at h
        obtain rfl : (k', as ++ [a]) :: rest = recs' := by simpa using h
        rw [List.map_cons, if_pos rfl,
          map_if_id rest k' _ (fun p hp hpk => hk' (hpk ▸ List.mem_map_of_mem Prod.fst hp))]
      · rw [appendArea, if_neg hkk] at h
        match hrec : appendArea rest k a with
        | .error e => rw [hrec] at h; simp at h
        | .ok r'' =>
            rw [hrec] at h
            obtain rfl : (k', as) :: r'' = recs' := by simpa using h
            rw [appendArea_ok hrec (by simpa using hrest), List.map_cons, if_neg hkk]

/-- The areas the loop of lines 127-133 adds to record name `n` from a
keyed entry list: the entries whose name key is `n` and whose bubble
payload is truthy, in order, each carrying the payload's first value. -/
def keptK (bd : List (String × Json)) (keyed : List (String × AreaEntry × PyKey))
    (n : PyKey) : List MergedArea :=
  (keyed.filter (fun t => decide (t.2.2 = n) && truthy (bubblesLookup bd t.1))).map
    (fun t => ⟨t.2.1.start, t.2.1.end_, t.2.1.products, firstVal (bubblesLookup bd t.1)⟩)

/-- `keptK` on an empty entry list. -/
theorem keptK_nil (bd : List (String × Json)) (n : PyKey) : keptK bd [] n = [] := rfl

/-- `keptK` on a cons. -/
theorem keptK_cons (bd : List (String × Json)) (anchor : String) (area : AreaEntry)
    (k : PyKey) (rest : List (String × AreaEntry × PyKey)) (n : PyKey) :
    keptK bd ((anchor, area, k) :: rest) n =
      if decide (k = n) && truthy (bubblesLookup bd anchor) then
        ⟨area.start, area.end_, area.products, firstVal (bubblesLookup bd anchor)⟩ ::
          keptK bd rest n
      else keptK bd rest n := by
  rw [keptK, List.filter_cons]
  by_cases hp : (decide (k = n) && truthy (bubblesLookup bd anchor)) = true
  · simp only at hp
    rw [if_pos hp, if_pos hp, List.map_cons]
    rfl
  · rw [if_neg hp, if_neg hp]
    rfl

/-- A successful merge loop extends every record's area list by exactly
its kept areas, in entry order. -/
theorem mergeLoop_ok {bd : List (String × Json)} :
    ∀ {keyed : List (String × AreaEntry × PyKey)} {recs final : List (PyKey × List MergedArea)},
    mergeLoop bd keyed recs = .ok final → (recs.map Prod.fst).Nodup →
    final = recs.map (fun p => (p.1, p.2 ++ keptK bd keyed p.1))
  | [], recs, final, h, _ => by
      obtain rfl : recs = final := by simpa [mergeLoop] using h
      simp [keptK_nil]
  | (anchor, area, k) :: rest, recs, final, h, hnd => by
      rw [mergeLoop] at h
      by_cases hb : truthy (bubblesLookup bd anchor)
      · rw [if_pos hb] at h
        match hv : pyDictValues (bubblesLookup bd anchor) with
        | .error e => rw [hv] at h; exact absurd h (by simp)
        | .ok vals =>
        obtain ⟨kvs, hobj⟩ : ∃ kvs, bubblesLookup bd anchor = .obj kvs := by
          cases hbl : bubblesLookup bd anchor
          case obj kvs => exact ⟨kvs, rfl⟩
          all_goals (rw [hbl] at hv; exact absurd hv (by simp [pyDictValues]))
        have hvals : vals = kvs.map (fun kv => kv.2) := by
          rw [hobj] at hv
          simpa [pyDictValues] using hv.symm
        rw [hv] at h
        simp only at h
        match hf : pyFirst vals with
        | .error e => rw [hf] at h; exact absurd h (by simp)
        | .ok first =>
        rw [hf] at h
        simp only at h
        match kvs, hvals with
        | [], hvals => exact absurd hf (by rw [hvals]; simp [pyFirst])
        | (k₀, v₀) :: kvs', hvals =>
        have hfirst : first = v₀ := by
          rw [hvals] at hf
          simpa [pyFirst] using hf.symm
        match ha : appendArea recs k ⟨area.start, area.end_, area.products, first⟩ with
        | .error e => rw [ha] at h; exact absurd h (by simp)
        | .ok recs' =>
        rw [ha] at h
        simp only at h
        have hrecs' := appendArea_ok ha hnd
        have hkeys : recs'.map Prod.fst = recs.map Prod.fst := by
          rw [hrecs', List.map_map]
          exact List.map_congr_left (fun p _ => by by_cases hp : p.1 = k <;> simp [hp])
        have ih := mergeLoop_ok h (hkeys ▸ hnd)
        rw [ih, hrecs', List.map_map]
        refine List.map_congr_left (fun p _ => ?_)
        rw [keptK_cons, hobj]
        by_cases hp : p.1 = k
        · have hkp : k = p.1 := hp.symm
          simp only [Function.comp, if_pos hp]
          rw [if_pos (by simp [hkp, truthy])]
          simp [hfirst, firstVal, List.append_assoc]
        · have hkp : ¬ (k = p.1) := fun hx => hp hx.symm
          simp [Function.comp, if_neg hp, hkp]
      · rw [if_neg hb] at h
        have ih := mergeLoop_ok h hnd
        rw [ih]
        refine List.map_congr_left (fun p _ => ?_)
        rw [keptK_cons]
        simp [hb]

/-- A successful `keyNames` pairs every entry with its (hashable) name
key, and certifies every name hashable. -/
theorem keyNames_ok : ∀ {areas : List (String × AreaEntry)}
    {keyed : List (String × AreaEntry × PyKey)},
    keyNames areas = .ok keyed →
    keyed = areas.map (fun e => (e.1, e.2, forceKey e.2.name)) ∧
      ∀ e ∈ areas, (okKey e.2.name).isSome = true
  | [], keyed, h => by
      obtain rfl : ([] : List (String × AreaEntry × PyKey)) = keyed := by
        simpa [keyNames] using h
      exact ⟨rfl, by simp⟩
  | e :: rest, keyed, h => by
      rw [keyNames] at h
      match hk : toKey e.2.name with
      | .error err => rw [hk] at h; exact absurd h (by simp)
      | .ok k =>
      rw [hk] at h
      simp only [exBind_ok] at h
      match hr : keyNames rest with
      | .error err => rw [hr] at h; exact absurd h (by simp)
      | .ok ks =>
      rw [hr] at h
      simp only [exBind_ok, exPure_eq] at h
      obtain rfl : (e.1, e.2, k) :: ks = keyed := by simpa using h
      obtain ⟨hks, hsome⟩ := keyNames_ok hr
      have hok : okKey e.2.name = some k := toKey_eq_ok.mp hk
      refine ⟨?_, ?_⟩
      · rw [hks, List.map_cons]
        have : forceKey e.2.name = k := by rw [forceKey, hok]; rfl
        rw [this]
      · intro e' he'
        rcases List.mem_cons.mp he' with rfl | he'
        · rw [hok]; rfl
        · exact hsome e' he'

/-- A successful merge, characterised per record name: the output contains
at most one record named `n`; it is present exactly when `keptAreas` is
nonempty, and then carries exactly those areas. -/
theorem gather_merge_filter {areas : List (String × AreaEntry)}
    {bd : List (String × Json)} {out : List MergedRecord}
    (h : gather_merge areas bd = .ok out) (n : PyKey) :
    out.filter (fun r => decide (r.name = n)) =
      if (keptAreas areas bd n).isEmpty = true then []
      else [⟨n, keptAreas areas bd n⟩] := by
  rw [gather_merge] at h
  match hkn : keyNames areas with
  | .error e => rw [hkn] at h; exact absurd h (by simp)
  | .ok keyed =>
  rw [hkn] at h
  simp only [exBind_ok] at h
  obtain ⟨hkeyed, hsome⟩ := keyNames_ok hkn
  match hml : mergeLoop bd keyed ((pyDedup (keyed.map (fun e => e.2.2)) []).map (fun n => (n, []))) with
  | .error e => rw [hml] at h; exact absurd h (by simp)
  | .ok final =>
  rw [hml] at h
  simp only [exBind_ok, exPure_eq] at h
  obtain rfl : ((final.filter (fun r => !r.2.isEmpty)).map
      (fun r => (⟨r.1, r.2⟩ : MergedRecord))) = out := by simpa using h
  have hnodup : (pyDedup (keyed.map (fun e => e.2.2)) []).Nodup :=
    pyDedup_nodup _ [] List.nodup_nil
  have hinitkeys : (((pyDedup (keyed.map (fun e => e.2.2)) []).map
      (fun m => ((m, []) : PyKey × List MergedArea))).map Prod.fst)
      = pyDedup (keyed.map (fun e => e.2.2)) [] := by
    rw [List.map_map]; exact List.map_id _
  have hfin := mergeLoop_ok hml (by rw [hinitkeys]; exact hnodup)
  -- `keptK` over the keyed list is `keptAreas` over the raw areas
  have hkept : ∀ m : PyKey, keptK bd keyed m = keptAreas areas bd m := by
    intro m
    rw [hkeyed, keptK, keptAreas, List.filter_map, List.map_map]
    rw [List.filter_congr (fun e he => ?_)]
    · rfl
    · obtain ⟨k, hk⟩ := Option.isSome_iff_exists.mp (hsome e he)
      simp [keptPred, Function.comp, forceKey, hk]
  -- membership in the name set
  have hmem : ∀ m : PyKey, m ∈ pyDedup (keyed.map (fun e => e.2.2)) [] ↔
      ∃ e ∈ areas, forceKey e.2.name = m := by
    intro m
    rw [pyDedup_mem, hkeyed, List.map_map]
    simp [Function.comp]
  set L := pyDedup (keyed.map (fun e => e.2.2)) [] with hL
  have hcomp1 : ((fun p : PyKey × List MergedArea => (p.1, p.2 ++ keptK bd keyed p.1)) ∘
      (fun m : PyKey => (m, ([] : List MergedArea)))) =
      fun m : PyKey => (m, keptK bd keyed m) := by
    funext m; simp
  rw [hfin, List.map_map, hcomp1, List.filter_map, List.filter_filter, List.filter_map,
    List.map_map]
  change (L.filter (fun m : PyKey => decide (m = n) && !(keptK bd keyed m).isEmpty)).map
    (fun m : PyKey => ({ name := m, areas := keptK bd keyed m } : MergedRecord)) = _
  rw [filter_key_nodup (fun m => !(keptK bd keyed m).isEmpty) n L hnodup]
  by_cases h0 : (keptAreas areas bd n).isEmpty = true
  · rw [if_pos h0]
    have hp : (!(keptK bd keyed n).isEmpty) = false := by
      rw [hkept n, h0]; rfl
    rw [if_neg (fun hc => by rw [hp] at hc; exact Bool.false_ne_true hc.2)]
    rfl
  · rw [if_neg h0]
    have hne : keptAreas areas bd n ≠ [] := by
      intro hx; exact h0 (by rw [hx]; rfl)
    have hp : (!(keptK bd keyed n).isEmpty) = true := by
      rw [hkept n]
      rcases hq : keptAreas areas bd n with _ | ⟨a, t⟩
      · exact absurd hq hne
      · rfl
    have hnin : n ∈ L := by
      obtain ⟨e, he⟩ : ∃ e, e ∈ areas.filter (keptPred bd n) := by
        rcases hq : areas.filter (keptPred bd n) with _ | ⟨e, t⟩
        · exact absurd (by rw [keptAreas, hq]; rfl) hne
        · exact ⟨e, hq ▸ List.mem_cons_self e t⟩
      obtain ⟨heA, hpred⟩ := List.mem_filter.mp he
      have hok : okKey e.2.name = some n := by
        have h2 : okKey e.2.name = some n ∧ truthy (bubblesLookup bd e.1) = true := by
          simpa [keptPred] using hpred
        exact h2.1
      exact (hmem n).mpr ⟨e, heA, by rw [forceKey, hok]; rfl⟩
    rw [if_pos ⟨hnin, hp⟩, List.map_cons, List.map_nil]
    have : keptK bd keyed n = keptAreas areas bd n := hkept n
    rw [this]

/-- A failing `appendArea` fails with `KeyError`, never anything else. -/
theorem appendArea_err : ∀ {recs : List (PyKey × List MergedArea)} {k : PyKey}
    {a : MergedArea} {e : Err}, appendArea recs k a = .error e → e = .keyError (pyStrKey k)
  | [], k, a, e, h => by
      rw [appendArea] at h
      exact (Except.error.inj h).symm
  | (k', as) :: rest, k, a, e, h => by
      rw [appendArea] at h
      by_cases hkk : k' = k
      · rw [if_pos hkk] at h; exact absurd h (by simp)
      · rw [if_neg hkk] at h
        match hrec : appendArea rest k a with
        | .error e' =>
            rw [hrec] at h
            have he : e' = e := by simpa using h
            exact he ▸ appendArea_err hrec
        | .ok r => rw [hrec] at h; exact absurd h (by simp)

/-- The merge loop never raises `IndexError`: the `[0]` indexing of line
132 is only reached behind the truthiness guard, which rules out an empty
dict. -/
theorem mergeLoop_no_index {bd : List (String × Json)} :
    ∀ (keyed : List (String × AreaEntry × PyKey)) (recs : List (PyKey × List MergedArea)),
    isIndexError (mergeLoop bd keyed recs) = false
  | [], recs => rfl
  | (anchor, area, k) :: rest, recs => by
      rw [mergeLoop]
      by_cases hb : truthy (bubblesLookup bd anchor)
      · rw [if_pos hb]
        cases hbl : bubblesLookup bd anchor with
        | obj kvs =>
            match kvs with
            | [] => rw [hbl] at hb; exact absurd hb (by simp [truthy])
            | kv :: kvs' =>
                simp only [pyDictValues, List.map_cons, pyFirst]
                match ha : appendArea recs k ⟨area.start, area.end_, area.products, kv.2⟩ with
                | .error e =>
                    rw [appendArea_err ha]
                    rfl
                | .ok recs' => exact mergeLoop_no_index rest recs'
        | null => simp [pyDictValues, isIndexError]
        | bool b => simp [pyDictValues, isIndexError]
        | num m => simp [pyDictValues, isIndexError]
        | str s => simp [pyDictValues, isIndexError]
        | arr xs => simp [pyDictValues, isIndexError]
      · rw [if_neg hb]
        exact mergeLoop_no_index rest recs

/-- Hashing names never raises `IndexError` either. -/
theorem keyNames_no_index : ∀ (areas : List (String × AreaEntry)),
    isIndexError (keyNames areas) = false
  | [] => rfl
  | e :: rest => by
      rw [keyNames]
      match hk : toKey e.2.name with
      | .error err =>
          have : err = .typeError "unhashable type: list" ∨
              err = .typeError "unhashable type: dict" := by
            cases hn : e.2.name <;> rw [hn] at hk <;> simp [toKey] at hk <;> simp [hk.symm]
          rcases this with rfl | rfl <;> rfl
      | .ok k =>
          simp only [exBind_ok]
          match hr : keyNames rest with
          | .error err =>
              have := keyNames_no_index rest
              rw [hr] at this
              simpa using this
          | .ok ks => rfl

/-! ## Claims about the per-directory merge -/

/-- Claim C1: for every results record with `N` areas of which `M` have
non-empty (truthy) bubble payloads under their anchors, the merge emits a
record with exactly `M` areas, and no record at all when `M = 0`.  Stated
per record name: the (unique) output record named `n` has exactly
`keptCount` areas, and is absent exactly when that count is zero — the
total number of areas of the record plays no role. -/
theorem spec_C1_round_trip {areas : List (String × AreaEntry)} {bd : List (String × Json)}
    {out : List MergedRecord} (h : gather_merge areas bd = .ok out) (n : PyKey) :
    (out.filter (fun r => decide (r.name = n))).map (fun r => r.areas.length) =
      if keptCount areas bd n = 0 then [] else [keptCount areas bd n] := by
  rw [gather_merge_filter h n]
  by_cases h0 : (keptAreas areas bd n).isEmpty = true
  · have hnil : keptAreas areas bd n = [] := by
      rcases hq : keptAreas areas bd n with _ | ⟨a, t⟩
      · rfl
      · rw [hq] at h0; exact absurd h0 (by simp [List.isEmpty])
    rw [if_pos h0, if_pos (by rw [keptCount, hnil]; rfl)]
    rfl
  · have hne : keptAreas areas bd n ≠ [] := fun hx => h0 (by rw [hx]; rfl)
    rw [if_neg h0, if_neg (fun hc : keptCount areas bd n = 0 =>
      hne (List.length_eq_zero.mp hc))]
    rfl

/-- Witness for C1 at a concrete input: a record with 2 areas, 1 truthy
payload, yields exactly 1 area. -/
theorem spec_C1_round_trip_witness :
    (((([⟨PyKey.str "A", [⟨.num 1, .num 2, .arr [], .num 7⟩]⟩] : List MergedRecord).filter
        (fun r => decide (r.name = PyKey.str "A"))).map (fun r => r.areas.length)) =
      if keptCount [("r1c1", ⟨.str "A", .num 1, .num 2, .arr []⟩),
          ("r1c2", ⟨.str "A", .num 3, .num 4, .arr []⟩)]
          [("r1c1", .obj [("v", .num 7)])] (PyKey.str "A") = 0 then []
      else [keptCount [("r1c1", ⟨.str "A", .num 1, .num 2, .arr []⟩),
          ("r1c2", ⟨.str "A", .num 3, .num 4, .arr []⟩)]
          [("r1c1", .obj [("v", .num 7)])] (PyKey.str "A")]) :=
  @spec_C1_round_trip
    [("r1c1", ⟨.str "A", .num 1, .num 2, .arr []⟩), ("r1c2", ⟨.str "A", .num 3, .num 4, .arr []⟩)]
    [("r1c1", .obj [("v", .num 7)])]
    [⟨PyKey.str "A", [⟨.num 1, .num 2, .arr [], .num 7⟩]⟩]
    rfl (PyKey.str "A")

/-- Counterexample to claim C3 as stated: the claim predicts that an area
whose variant-selected value (the first variant's payload) is empty/falsy
is dropped entirely.  The code's guard (line 130) tests the whole variant
mapping, not the selected value: with payload `{"v": {}}` the mapping is
truthy, so the area is kept, with `bubbles` set to the empty dict. -/
theorem spec_C3_counterexample :
    gather_merge [("r1c1", ⟨.str "A", .num 1, .num 2, .arr []⟩)]
        [("r1c1", .obj [("v", .obj [])])] =
      .ok [⟨.str "A", [⟨.num 1, .num 2, .arr [], .obj []⟩]⟩] ∧
    truthy (firstVal (bubblesLookup [("r1c1", .obj [("v", .obj [])])] "r1c1")) = false :=
  ⟨rfl, rfl⟩

/-- Claim C3 (amended): during the merge, an area is dropped exactly when
its anchor's bubble payload is absent or falsy (`None`, `{}`, …); an area
with a truthy payload is kept with `bubbles` set to the payload's first
variant value — even when that value is itself empty or falsy. -/
theorem spec_C3_area_filter {areas : List (String × AreaEntry)} {bd : List (String × Json)}
    {out : List MergedRecord} (h : gather_merge areas bd = .ok out) (n : PyKey) :
    (out.filter (fun r => decide (r.name = n))).map (fun r => r.areas) =
      if (keptAreas areas bd n).isEmpty = true then [] else [keptAreas areas bd n] := by
  rw [gather_merge_filter h n]
  by_cases h0 : (keptAreas areas bd n).isEmpty = true
  · rw [if_pos h0, if_pos h0]; rfl
  · rw [if_neg h0, if_neg h0]; rfl

/-- Witness for the amended C3 at the counterexample input: the area with
payload `{"v": {}}` is kept, with empty `bubbles`. -/
theorem spec_C3_area_filter_witness :
    ((([⟨PyKey.str "A", [⟨.num 1, .num 2, .arr [], .obj []⟩]⟩] : List MergedRecord).filter
        (fun r => decide (r.name = PyKey.str "A"))).map (fun r => r.areas)) =
      if (keptAreas [("r1c1", ⟨.str "A", .num 1, .num 2, .arr []⟩)]
          [("r1c1", .obj [("v", .obj [])])] (PyKey.str "A")).isEmpty = true then []
      else [keptAreas [("r1c1", ⟨.str "A", .num 1, .num 2, .arr []⟩)]
          [("r1c1", .obj [("v", .obj [])])] (PyKey.str "A")] :=
  @spec_C3_area_filter
    [("r1c1", ⟨.str "A", .num 1, .num 2, .arr []⟩)]
    [("r1c1", .obj [("v", .obj [])])]
    [⟨PyKey.str "A", [⟨.num 1, .num 2, .arr [], .obj []⟩]⟩]
    rfl (PyKey.str "A")

/-- Claim C5: when an anchor's bubble payload has several variant keys,
the merge deterministically keeps exactly the insertion-order-first
variant's value as the area's `bubbles`, whatever the key names are: the
output record for the area's name contains the area built from `v0`, the
first variant value. -/
theorem spec_C5_first_variant {areas : List (String × AreaEntry)} {bd : List (String × Json)}
    {out : List MergedRecord} (h : gather_merge areas bd = .ok out)
    {anchor : String} {area : AreaEntry} {k0 : String} {v0 : Json}
    {rest : List (String × Json)} {n : PyKey}
    (hmem : (anchor, area) ∈ areas)
    (hbd : bubblesLookup bd anchor = .obj ((k0, v0) :: rest))
    (hname : okKey area.name = some n) :
    ∃ r ∈ out, r.name = n ∧
      (⟨area.start, area.end_, area.products, v0⟩ : MergedArea) ∈ r.areas := by
  have hkp : keptPred bd n (anchor, area) = true := by
    simp [keptPred, hname, hbd, truthy]
  have hmem2 : (⟨area.start, area.end_, area.products,
      firstVal (bubblesLookup bd anchor)⟩ : MergedArea) ∈ keptAreas areas bd n := by
    rw [keptAreas]
    exact List.mem_map_of_mem _ (List.mem_filter.mpr ⟨hmem, hkp⟩)
  rw [hbd] at hmem2
  have hv0 : firstVal (.obj ((k0, v0) :: rest)) = v0 := rfl
  rw [hv0] at hmem2
  have hne : ¬ (keptAreas areas bd n).isEmpty = true := by
    intro hE
    rcases hq : keptAreas areas bd n with _ | ⟨a, t⟩
    · rw [hq] at hmem2; exact absurd hmem2 (List.not_mem_nil _)
    · rw [hq] at hE; exact absurd hE (by simp [List.isEmpty])
  have hfil := gather_merge_filter h n
  rw [if_neg hne] at hfil
  have hrec : (⟨n, keptAreas areas bd n⟩ : MergedRecord) ∈
      out.filter (fun r => decide (r.name = n)) := by
    rw [hfil]; exact List.mem_singleton.mpr rfl
  obtain ⟨hrout, _⟩ := List.mem_filter.mp hrec
  exact ⟨⟨n, keptAreas areas bd n⟩, hrout, rfl, hmem2⟩

/-- Witness for C5 at a concrete two-variant payload: `cand1` wins. -/
theorem spec_C5_first_variant_witness :
    ∃ r ∈ ([⟨PyKey.str "A", [⟨.num 1, .num 2, .arr [], .num 7⟩]⟩] : List MergedRecord),
      r.name = PyKey.str "A" ∧
      (⟨.num 1, .num 2, .arr [], .num 7⟩ : MergedArea) ∈ r.areas :=
  @spec_C5_first_variant
    [("r1c1", ⟨.str "A", .num 1, .num 2, .arr []⟩)]
    [("r1c1", .obj [("cand1", .num 7), ("cand2", .num 8)])]
    [⟨PyKey.str "A", [⟨.num 1, .num 2, .arr [], .num 7⟩]⟩]
    rfl
    "r1c1" ⟨.str "A", .num 1, .num 2, .arr []⟩ "cand1" (.num 7) [("cand2", .num 8)]
    (PyKey.str "A")
    (List.mem_singleton.mpr rfl) rfl rfl

/-- Claim C9: the first-variant selection `list(bubbles.values())[0]` of
line 132 never raises `IndexError`, for any merge input: the guard of
lines 130-131 skips falsy payloads, so the value list is never empty when
indexed. -/
theorem spec_C9_no_index_error (areas : List (String × AreaEntry))
    (bd : List (String × Json)) :
    isIndexError (gather_merge areas bd) = false := by
  rw [gather_merge]
  match hkn : keyNames areas with
  | .error e =>
      have h1 := keyNames_no_index areas
      rw [hkn] at h1
      rw [exBind_error]
      cases e
      case indexError => simp [isIndexError] at h1
      all_goals rfl
  | .ok keyed =>
      rw [exBind_ok]
      match hml : mergeLoop bd keyed
          ((pyDedup (keyed.map (fun e => e.2.2)) []).map (fun n => (n, []))) with
      | .error e =>
          have h1 := @mergeLoop_no_index bd keyed
            ((pyDedup (keyed.map (fun e => e.2.2)) []).map (fun n => (n, [])))
          rw [hml] at h1
          simp only [hml, exBind_error]
          cases e
          case indexError => simp [isIndexError] at h1
          all_goals rfl
      | .ok final =>
          simp only [hml, exBind_ok]
          rfl

/-! ## Claims about the Bubble-Data Extractor -/

/-- What the original specification sentence prescribes after joining and
whitespace-stripping: removal of one single trailing semicolon, if any. -/
def stripOneSemi (s : String) : String :=
  if s.data.getLast? = some ';' then String.mk s.data.dropLast else s

/-- The text the specification's §4.2 sentence, read literally, would hand
to the JSON parser (single trailing semicolon stripped). -/
def relevantTextSpecSingle (lines : List String) : Except Err String :=
  (findMarker lines).map
    (fun ls => stripOneSemi (pyRstripWs (String.intercalate " " (collectSection ls))))

/-- The specification's §4.2 extraction, amended to strip every trailing
semicolon: scan to the marker line, take lines up to the next `var `
declaration, join with single spaces, strip trailing whitespace, then all
trailing semicolons.  Written from the specification's wording, with
combinators, to be compared against the source-derived `relevantText`. -/
def relevantTextSpecAll (lines : List String) : Except Err String :=
  match lines.dropWhile (fun l => !(pyStartsWith l "var resultsData =")) with
  | [] => .error (.valueError "Javascript data does not contain relevant results")
  | l :: rest =>
      .ok (pyRstripSemis (pyRstripWs (String.intercalate " "
        ((pyReplace l "var resultsData = " "" :: rest).takeWhile
          (fun x => !(pyStartsWith x "var "))))))

/-- The scanning loop is the `dropWhile` of the specification. -/
theorem findMarker_eq_dropWhile : ∀ (lines : List String),
    findMarker lines =
      match lines.dropWhile (fun l => !(pyStartsWith l "var resultsData =")) with
      | [] => .error (.valueError "Javascript data does not contain relevant results")
      | l :: rest => .ok (pyReplace l "var resultsData = " "" :: rest)
  | [] => rfl
  | l :: rest => by
      by_cases hl : pyStartsWith l "var resultsData ="
      · rw [findMarker, if_pos hl, List.dropWhile_cons]
        simp [hl]
      · rw [findMarker, if_neg hl, List.dropWhile_cons]
        simp only [hl, Bool.not_false, if_pos]
        exact findMarker_eq_dropWhile rest

/-- The collection loop is the `takeWhile` of the specification. -/
theorem collectSection_eq_takeWhile : ∀ (ls : List String),
    collectSection ls = ls.takeWhile (fun x => !(pyStartsWith x "var "))
  | [] => rfl
  | l :: rest => by
      by_cases hl : pyStartsWith l "var "
      · rw [collectSection, if_pos hl, List.takeWhile_cons]
        simp [hl]
      · rw [collectSection, if_neg hl, List.takeWhile_cons]
        simp only [hl, Bool.not_false, if_pos]
        rw [collectSection_eq_takeWhile rest]

/-- The source's prepared text equals the amended specification's. -/
theorem relevantText_eq_spec (lines : List String) :
    relevantText lines = relevantTextSpecAll lines := by
  rw [relevantText, findMarker_eq_dropWhile, relevantTextSpecAll]
  match lines.dropWhile (fun l => !(pyStartsWith l "var resultsData =")) with
  | [] => rfl
  | l :: rest =>
      rw [exMap_ok, collectSection_eq_takeWhile]

/-- Counterexample to claim C4 as stated: with the collected assignment
text ending in two semicolons, the code (`rstrip(";")`, line 98) hands the
parser `"0"`, while the claimed single-semicolon strip would hand it
`"0;"` — not valid JSON. -/
theorem spec_C4_counterexample :
    relevantText ["var resultsData = 0;;\n"] = .ok "0" ∧
    relevantTextSpecSingle ["var resultsData = 0;;\n"] = .ok "0;" :=
  ⟨rfl, rfl⟩

/-- Claim C4 (amended): after collecting the assignment's lines, the
extractor concatenates them with single-space separators, strips trailing
whitespace, strips every trailing semicolon, and parses exactly the
remaining text as JSON (then extracts the per-anchor payloads). -/
theorem spec_C4_text_pipeline (loads : String → Except Err Json) (lines : List String) :
    extract_bubble_data loads lines =
      (relevantTextSpecAll lines).bind (fun txt => (loads txt).bind extractPayloads) := by
  rw [extract_bubble_data, relevantText_eq_spec]
  rfl

/-! ## Claims about the missing-marker error path -/

/-- When no line carries the marker, the scan runs off the end and raises
the `ValueError` of line 89. -/
theorem findMarker_none : ∀ {lines : List String},
    (∀ l ∈ lines, pyStartsWith l "var resultsData =" = false) →
    findMarker lines = .error (.valueError "Javascript data does not contain relevant results")
  | [], _ => rfl
  | l :: rest, h => by
      rw [findMarker, if_neg (by simp [h l (List.mem_cons_self l rest)])]
      exact findMarker_none (fun x hx => h x (List.mem_cons_of_mem l hx))

/-- Counterexample to claim C8 as stated: on a directory whose
`regions.js` has no `var resultsData =` marker, `_main` does not return
exit code 1 — the `ValueError` raised by `extract_bubble_data` is not an
`InputError` or `OSError`, so the `except` clause of lines 191-193 does
not catch it and the exception propagates out of `_main` (modelled as
`.error`, in contrast to the `.ok ⟨1, …⟩` the claim requires). -/
theorem spec_C8_counterexample :
    run_main constLoads (some [⟨"d1", [mkDoc 2 []], some ["no marker here\n"]⟩]) "input" true
      = .error (.valueError "Javascript data does not contain relevant results") := rfl

/-- Claim C8 (amended): the Bubble-Data Extractor scans for a line whose
prefix is `var resultsData =`; when no such line exists it raises
`ValueError("Javascript data does not contain relevant results")`, and for
such an input (with a loadable results file alongside) the error
propagates uncaught out of `_main` — which catches only `OSError` and
`InputError` — instead of `_main` returning exit code 1; the Python
process then dies with that exception's traceback. -/
theorem spec_C8_uncaught (loads : String → Except Err Json) (nm inName : String)
    (doc : Json) (lines : List String) (areas0 : List (String × AreaEntry))
    (hdoc : get_areas doc = .ok areas0)
    (hmark : ∀ l ∈ lines, pyStartsWith l "var resultsData =" = false) :
    extract_bubble_data loads lines =
      .error (.valueError "Javascript data does not contain relevant results") ∧
    run_main loads (some [⟨nm, [doc], some lines⟩]) inName true =
      .error (.valueError "Javascript data does not contain relevant results") := by
  have hext : extract_bubble_data loads lines =
      .error (.valueError "Javascript data does not contain relevant results") := by
    rw [extract_bubble_data, relevantText, findMarker_none hmark]
    rfl
  refine ⟨hext, ?_⟩
  have hgff : gather_from_files loads ⟨nm, [doc], some lines⟩ =
      .error (.valueError "Javascript data does not contain relevant results") := by
    rw [gather_from_files]
    simp only [hdoc, exBind_ok]
    rw [hext]
    rfl
  have hpar : process_all_results loads [⟨nm, [doc], some lines⟩] =
      .error (.valueError "Javascript data does not contain relevant results") := by
    show gatherAll loads [⟨nm, [doc], some lines⟩] = _
    rw [gatherAll]
    simp only [hgff, exBind_error]
  have hgen : generate_page loads [⟨nm, [doc], some lines⟩] =
      .error (.valueError "Javascript data does not contain relevant results") := by
    rw [generate_page]
    simp only [hpar, exBind_error]
  rw [run_main]
  simp only [hgen, Bool.not_true, if_neg]
  rfl

/-- Witness for the amended C8 at a concrete marker-less input. -/
theorem spec_C8_uncaught_witness :
    extract_bubble_data constLoads ["x\n"] =
      .error (.valueError "Javascript data does not contain relevant results") ∧
    run_main constLoads (some [⟨"d1", [mkDoc 2 []], some ["x\n"]⟩]) "input" true =
      .error (.valueError "Javascript data does not contain relevant results") :=
  @spec_C8_uncaught constLoads "d1" "input" (mkDoc 2 []) ["x\n"] [] rfl (by decide)

/-! ## Decimal rendering of anchor indices -/


def decChars (n : Nat) : List Char :=
  if n = 0 then ['0'] else ((Nat.digits 10 n).map Nat.digitChar).reverse

theorem digitChar_isDigit : ∀ d, d < 10 → (Nat.digitChar d).isDigit = true := by decide

theorem digitChar_injOn : ∀ a, a < 10 → ∀ b, b < 10 →
    Nat.digitChar a = Nat.digitChar b → a = b := by decide

theorem decChars_of_ne {n : Nat} (h : ¬ n = 0) :
    decChars n = ((Nat.digits 10 n).map Nat.digitChar).reverse := by
  rw [decChars, if_neg h]

theorem toDigitsCore_eq_decChars : ∀ (n fuel : Nat) (ds : List Char), n < fuel →
    Nat.toDigitsCore 10 fuel n ds = decChars n ++ ds := by
  intro n
  induction n using Nat.strong_induction_on with
  | _ n ih =>
      intro fuel ds h
      match fuel, h with
      | fuel + 1, h =>
      rw [Nat.toDigitsCore]
      by_cases h10 : n / 10 = 0
      · rw [if_pos h10]
        have hn10 : n < 10 := by
          rcases Nat.lt_or_ge n 10 with hlt | hge
          · exact hlt
          · exact absurd h10 (by omega)
        by_cases h0 : n = 0
        · subst h0; rfl
        · have hdig : Nat.digits 10 n = [n] := by
            rw [Nat.digits_def' (by norm_num) (Nat.pos_of_ne_zero h0)]
            rw [Nat.mod_eq_of_lt hn10, h10, Nat.digits_zero]
          rw [decChars_of_ne h0, hdig]
          simp [Nat.mod_eq_of_lt hn10]
      · rw [if_neg h10]
        have hpos : 0 < n := by
          rcases Nat.eq_zero_or_pos n with rfl | hp
          · exact absurd (by norm_num : (0 : Nat) / 10 = 0) h10
          · exact hp
        have hlt : n / 10 < n := Nat.div_lt_self hpos (by norm_num)
        have hfuel : n / 10 < fuel := by omega
        have hdig : Nat.digits 10 n = n % 10 :: Nat.digits 10 (n / 10) :=
          Nat.digits_def' (by norm_num) hpos
        have hstep : decChars n = decChars (n / 10) ++ [Nat.digitChar (n % 10)] := by
          rw [decChars_of_ne (by omega), decChars_of_ne h10, hdig]
          simp
        rw [ih (n / 10) hlt fuel (Nat.digitChar (n % 10) :: ds) hfuel, hstep]
        simp

theorem repr_eq_decChars (n : Nat) : Nat.repr n = String.mk (decChars n) := by
  rw [Nat.repr, Nat.toDigits, toDigitsCore_eq_decChars n (n + 1) [] (Nat.lt_succ_self n),
    List.append_nil]
  rfl

theorem decChars_digits (n : Nat) : ∀ c ∈ decChars n, c.isDigit = true := by
  rw [decChars]
  by_cases h0 : n = 0
  · rw [if_pos h0]
    intro c hc
    obtain rfl : c = '0' := by simpa using hc
    rfl
  · rw [if_neg h0]
    intro c hc
    rw [List.mem_reverse] at hc
    obtain ⟨d, hd, rfl⟩ := List.mem_map.mp hc
    exact digitChar_isDigit d (Nat.digits_lt_base (by norm_num) hd)

theorem map_digitChar_inj : ∀ (l1 l2 : List Nat), (∀ d ∈ l1, d < 10) → (∀ d ∈ l2, d < 10) →
    l1.map Nat.digitChar = l2.map Nat.digitChar → l1 = l2
  | [], [], _, _, _ => rfl
  | [], _ :: _, _, _, h => by simp at h
  | _ :: _, [], _, _, h => by simp at h
  | a :: l1, b :: l2, h1, h2, h => by
      rw [List.map_cons, List.map_cons] at h
      obtain ⟨hab, htl⟩ := List.cons.inj h
      rw [digitChar_injOn a (h1 a (List.mem_cons_self a l1)) b (h2 b (List.mem_cons_self b l2)) hab,
        map_digitChar_inj l1 l2 (fun d hd => h1 d (List.mem_cons_of_mem a hd))
          (fun d hd => h2 d (List.mem_cons_of_mem b hd)) htl]

theorem decChars_inj : ∀ {a b : Nat}, decChars a = decChars b → a = b := by
  have hne : ∀ n : Nat, n ≠ 0 → decChars n ≠ ['0'] := by
    intro n h0 hc
    rw [decChars, if_neg h0] at hc
    have : (Nat.digits 10 n).map Nat.digitChar = ['0'] := by
      have := congrArg List.reverse hc
      simpa using this
    have hd : Nat.digits 10 n = [0] := by
      have hmem : ∀ d ∈ Nat.digits 10 n, d < 10 :=
        fun d hd => Nat.digits_lt_base (by norm_num) hd
      have := map_digitChar_inj (Nat.digits 10 n) [0] hmem (by simp) (by simpa using this)
      simpa using this
    have := Nat.ofDigits_digits 10 n
    rw [hd] at this
    simp [Nat.ofDigits] at this
    exact h0 this.symm
  intro a b h
  by_cases ha : a = 0 <;> by_cases hb : b = 0
  · rw [ha, hb]
  · exact absurd (by rw [← h, decChars, if_pos ha]) (fun hx => hne b hb hx)
  · exact absurd (by rw [h, decChars, if_pos hb]) (fun hx => hne a ha hx)
  · rw [decChars, if_neg ha, decChars, if_neg hb] at h
    have h2 : (Nat.digits 10 a).map Nat.digitChar = (Nat.digits 10 b).map Nat.digitChar := by
      have := congrArg List.reverse h
      simpa using this
    have hd := map_digitChar_inj _ _
      (fun d hd => Nat.digits_lt_base (by norm_num) hd)
      (fun d hd => Nat.digits_lt_base (by norm_num) hd) h2
    have hA := Nat.ofDigits_digits 10 a
    have hB := Nat.ofDigits_digits 10 b
    rw [hd] at hA
    rw [hA] at hB
    exact hB.symm ▸ rfl


/-! ## Anchor strings are injective in the index pair -/

theorem decChars_not_c (n : Nat) : 'c' ∉ decChars n := by
  intro hc
  have := decChars_digits n 'c' hc
  simp [Char.isDigit] at this

theorem append_cons_inj : ∀ (a a' b b' : List Char) (c : Char), c ∉ a → c ∉ a' →
    a ++ c :: b = a' ++ c :: b' → a = a' ∧ b = b'
  | [], [], b, b', c, _, _, h => ⟨rfl, by simpa using h⟩
  | [], x :: xs, b, b', c, _, ha', h => by
      have hcx : c = x := (List.cons.inj (by simpa using h)).1
      exact absurd (by rw [hcx]; exact List.mem_cons_self x xs) ha'
  | x :: xs, [], b, b', c, ha, _, h => by
      have hcx : c = x := ((List.cons.inj (by simpa using h)).1).symm
      exact absurd (by rw [hcx]; exact List.mem_cons_self x xs) ha
  | x :: xs, y :: ys, b, b', c, ha, ha', h => by
      obtain ⟨rfl, htl⟩ := List.cons.inj (by simpa using h)
      obtain ⟨h1, h2⟩ := append_cons_inj xs ys b b' c
        (fun hm => ha (List.mem_cons_of_mem x hm))
        (fun hm => ha' (List.mem_cons_of_mem x hm)) htl
      exact ⟨by rw [h1], h2⟩

theorem toString_nat_data (n : Nat) : (toString n).data = decChars n := by
  have h : toString n = Nat.repr n := rfl
  rw [h, repr_eq_decChars]

theorem anchorStr_inj {i j i' j' : Nat} (h : anchorStr i j = anchorStr i' j') :
    i = i' ∧ j = j' := by
  have hd := congrArg String.data h
  rw [anchorStr, anchorStr] at hd
  simp only [String.data_append, toString_nat_data] at hd
  have hd2 : 'r' :: (decChars (i + 1) ++ 'c' :: decChars (j + 1)) =
      'r' :: (decChars (i' + 1) ++ 'c' :: decChars (j' + 1)) := by
    simpa [List.append_assoc] using hd
  obtain ⟨h1, h2⟩ := append_cons_inj _ _ _ _ 'c'
    (decChars_not_c (i + 1)) (decChars_not_c (i' + 1)) (List.cons.inj hd2).2
  have hi := decChars_inj h1
  have hj := decChars_inj h2
  exact ⟨by omega, by omega⟩

/-! ## Evaluating the extractor on well-formed documents -/

theorem dictInsert_fresh {α : Type} : ∀ (d : List (String × α)) (k : String) (v : α),
    (∀ p ∈ d, p.1 ≠ k) → dictInsert d k v = d ++ [(k, v)]
  | [], k, v, _ => rfl
  | (k', v') :: rest, k, v, h => by
      rw [dictInsert, if_neg (h (k', v') (List.mem_cons_self _ _)),
        dictInsert_fresh rest k v (fun p hp => h p (List.mem_cons_of_mem _ hp))]
      rfl

theorem mkRow_keys : ∀ (id : Json) (as : List AreaData) (i j : Nat) (p : String × AreaEntry),
    p ∈ mkRow id as i j → ∃ j', p.1 = anchorStr i j'
  | id, [], i, j, p, hp => absurd hp (List.not_mem_nil p)
  | id, a :: rest, i, j, p, hp => by
      rcases List.mem_cons.mp hp with rfl | hp'
      · exact ⟨j, rfl⟩
      · exact mkRow_keys id rest i (j + 1) p hp'

theorem insRow_eq (id : Json) : ∀ (as : List AreaData) (i j : Nat)
    (acc : List (String × AreaEntry)),
    (∀ p ∈ acc, ∃ i' j', p.1 = anchorStr i' j' ∧ (i' < i ∨ (i' = i ∧ j' < j))) →
    insRow id as i j acc = acc ++ mkRow id as i j
  | [], i, j, acc, _ => by simp [insRow, mkRow]
  | a :: rest, i, j, acc, h => by
      rw [insRow, mkRow]
      have hfresh : ∀ p ∈ acc, p.1 ≠ anchorStr i j := by
        intro p hp heq
        obtain ⟨i', j', hk, hlt⟩ := h p hp
        obtain ⟨hi, hj⟩ := anchorStr_inj (hk ▸ heq : anchorStr i' j' = anchorStr i j)
        omega
      rw [dictInsert_fresh acc (anchorStr i j) _ hfresh]
      rw [insRow_eq id rest i (j + 1) _ (fun p hp => ?_)]
      · simp
      · rcases List.mem_append.mp hp with hp' | hp'
        · obtain ⟨i', j', hk, hlt⟩ := h p hp'
          exact ⟨i', j', hk, by omega⟩
        · obtain rfl : p = (anchorStr i j, (⟨id, a.start, a.end_, a.products⟩ : AreaEntry)) := by
            simpa using hp'
          exact ⟨i, j, rfl, by omega⟩

theorem insRows_eq : ∀ (recs : List RecordData) (i : Nat) (acc : List (String × AreaEntry)),
    (∀ p ∈ acc, ∃ i' j', p.1 = anchorStr i' j' ∧ i' < i) →
    insRows recs i acc = acc ++ mkRows recs i
  | [], i, acc, _ => by simp [insRows, mkRows]
  | r :: rest, i, acc, h => by
      rw [insRows, mkRows]
      rw [insRow_eq r.id r.areas i 0 acc (fun p hp => ?_)]
      · rw [insRows_eq rest (i + 1) _ (fun p hp => ?_)]
        · simp
        · rcases List.mem_append.mp hp with hp' | hp'
          · obtain ⟨i', j', hk, hlt⟩ := h p hp'
            exact ⟨i', j', hk, by omega⟩
          · obtain ⟨j', hk⟩ := mkRow_keys r.id r.areas i 0 p hp'
            exact ⟨i, j', hk, by omega⟩
      · obtain ⟨i', j', hk, hlt⟩ := h p hp
        exact ⟨i', j', hk, Or.inl hlt⟩

theorem mkRow_keys_row : ∀ (id : Json) (as : List AreaData) (i j : Nat),
    (mkRow id as i j).map Prod.fst = anchorRow i as.length j
  | id, [], i, j => rfl
  | id, a :: rest, i, j => by
      rw [mkRow, List.map_cons, List.length_cons, anchorRow, mkRow_keys_row id rest i (j + 1)]

theorem mkRows_keys_rows : ∀ (recs : List RecordData) (i : Nat),
    (mkRows recs i).map Prod.fst = anchorsFrom (recs.map (fun r => r.areas.length)) i
  | [], i => rfl
  | r :: rest, i => by
      rw [mkRows, List.map_cons, anchorsFrom, List.map_append, mkRow_keys_row,
        mkRows_keys_rows rest (i + 1)]

theorem get_areas_inner_eval (rd : RecordData) : ∀ (as : List AreaData) (i j : Nat)
    (acc : List (String × AreaEntry)),
    get_areas_inner (recordJson rd) (as.map areaJson) i j acc = .ok (insRow rd.id as i j acc)
  | [], i, j, acc => rfl
  | a :: rest, i, j, acc => by
      rw [List.map_cons, get_areas_inner]
      have h1 : pyGetItem (recordJson rd) "id" = .ok rd.id := rfl
      have h2 : pyGetItem (areaJson a) "start" = .ok a.start := rfl
      have h3 : pyGetItem (areaJson a) "end" = .ok a.end_ := rfl
      have h4 : pyGetItem (areaJson a) "products" = .ok a.products := rfl
      rw [h1, exBind_ok, h2, exBind_ok, h3, exBind_ok, h4, exBind_ok, insRow]
      exact get_areas_inner_eval rd rest i (j + 1) _

theorem get_areas_loop_eval : ∀ (recs : List RecordData) (i : Nat)
    (acc : List (String × AreaEntry)),
    get_areas_loop (recs.map recordJson) i acc = .ok (insRows recs i acc)
  | [], i, acc => rfl
  | r :: rest, i, acc => by
      rw [List.map_cons, get_areas_loop]
      have h1 : pyGetItem (recordJson r) "areas" = .ok (.arr (r.areas.map areaJson)) := rfl
      rw [h1, exBind_ok]
      have h2 : pyIterate (.arr (r.areas.map areaJson)) = .ok (r.areas.map areaJson) := rfl
      rw [h2, exBind_ok, get_areas_inner_eval r r.areas i 0 acc, exBind_ok, insRows]
      exact get_areas_loop_eval rest (i + 1) _

theorem get_areas_mkDoc_ok (s : Int) (recs : List RecordData) (hs : 2 ≤ s ∧ s ≤ 3) :
    get_areas (mkDoc s recs) = .ok (mkRows recs 0) := by
  rw [get_areas]
  have h1 : pyGetD (mkDoc s recs) "schema" (Json.num 0) = .ok (Json.num s) := rfl
  rw [h1, exBind_ok]
  have h2 : pyChainedLe 2 (Json.num s) 3 = .ok (decide (2 ≤ s ∧ s ≤ 3)) := rfl
  rw [h2, exBind_ok, decide_eq_true hs, if_pos rfl]
  have h3 : pyGetItem (mkDoc s recs) "records" = .ok (.arr (recs.map recordJson)) := rfl
  rw [h3, exBind_ok]
  have h4 : pyIterate (.arr (recs.map recordJson)) = .ok (recs.map recordJson) := rfl
  rw [h4, exBind_ok, get_areas_loop_eval recs 0 [],
    insRows_eq recs 0 [] (fun p hp => absurd hp (List.not_mem_nil p)), List.nil_append]

theorem get_areas_mkDoc_bad (s : Int) (recs : List RecordData) (hs : ¬ (2 ≤ s ∧ s ≤ 3)) :
    get_areas (mkDoc s recs) = .error (.inputError
      ("incompatible antiSMASH results file schema version: " ++ toString s)) := by
  rw [get_areas]
  have h1 : pyGetD (mkDoc s recs) "schema" (Json.num 0) = .ok (Json.num s) := rfl
  rw [h1, exBind_ok]
  have h2 : pyChainedLe 2 (Json.num s) 3 = .ok (decide (2 ≤ s ∧ s ≤ 3)) := rfl
  rw [h2, exBind_ok, decide_eq_false hs]
  rfl

/-! ## Claims about the Area Extractor -/

/-- Claim C2: on a well-formed results document, the extractor succeeds
exactly for schema versions 2 and 3; every other integer version fails
with the `InputError` of line 61, whose message contains the offending
version number. -/
theorem spec_C2_schema_gate (s : Int) (recs : List RecordData) :
    (2 ≤ s ∧ s ≤ 3 → get_areas (mkDoc s recs) = .ok (mkRows recs 0)) ∧
    (¬ (2 ≤ s ∧ s ≤ 3) →
      get_areas (mkDoc s recs) = .error (.inputError
        ("incompatible antiSMASH results file schema version: " ++ toString s)) ∧
      ∃ pre suf : String,
        "incompatible antiSMASH results file schema version: " ++ toString s =
          pre ++ toString s ++ suf) := by
  refine ⟨fun hs => get_areas_mkDoc_ok s recs hs, fun hs => ⟨get_areas_mkDoc_bad s recs hs, ?_⟩⟩
  exact ⟨"incompatible antiSMASH results file schema version: ", "", by simp⟩

/-- Witness for C2: schema 2 succeeds, schema 5 fails with the versioned
message. -/
theorem spec_C2_schema_gate_witness :
    get_areas (mkDoc 2 []) = .ok (mkRows [] 0) ∧
    get_areas (mkDoc 5 []) = .error (.inputError
      ("incompatible antiSMASH results file schema version: " ++ toString (5 : Int))) :=
  ⟨(spec_C2_schema_gate 2 []).1 (by decide), ((spec_C2_schema_gate 5 []).2 (by decide)).1⟩

/-- Claim C10: a results document without a top-level `schema` key does
not raise a `KeyError`: `full_results.get("schema", 0)` (line 59) defaults
the version to 0, and the extractor fails with the same
incompatible-schema `InputError` as an explicit out-of-range version 0
does. -/
theorem spec_C10_missing_schema (kvs : List (String × Json)) (recs : List RecordData)
    (h : lookupJ kvs "schema" = none) :
    get_areas (.obj kvs) =
      .error (.inputError "incompatible antiSMASH results file schema version: 0") ∧
    get_areas (mkDoc 0 recs) =
      .error (.inputError "incompatible antiSMASH results file schema version: 0") := by
  constructor
  · rw [get_areas]
    have h1 : pyGetD (.obj kvs) "schema" (Json.num 0) = .ok (Json.num 0) := by
      rw [pyGetD, h]
      rfl
    rw [h1, exBind_ok]
    rfl
  · have := get_areas_mkDoc_bad 0 recs (by decide)
    rw [this]
    rfl

/-- Witness for C10 at the empty document. -/
theorem spec_C10_missing_schema_witness :
    get_areas (.obj []) =
      .error (.inputError "incompatible antiSMASH results file schema version: 0") ∧
    get_areas (mkDoc 0 []) =
      .error (.inputError "incompatible antiSMASH results file schema version: 0") :=
  spec_C10_missing_schema [] [] rfl

/-- Claim C6: anchors are purely positional.  On a well-formed document,
the keys of the extraction are exactly the strings `r(i+1)c(j+1)` laid out
by record index `i` and area index `j` (`anchorsFrom` of the per-record
area counts), so two documents of the same shape — whatever their `id`
fields, coordinates or `products` — receive identical anchor lists. -/
theorem spec_C6_positional_anchors (s : Int) (recs recs' : List RecordData)
    (hs : 2 ≤ s ∧ s ≤ 3)
    (hshape : recs.map (fun r => r.areas.length) = recs'.map (fun r => r.areas.length)) :
    keysOf (get_areas (mkDoc s recs)) = anchorsFrom (recs.map (fun r => r.areas.length)) 0 ∧
    keysOf (get_areas (mkDoc s recs)) = keysOf (get_areas (mkDoc s recs')) := by
  have hkeys : ∀ rs : List RecordData,
      keysOf (get_areas (mkDoc s rs)) = anchorsFrom (rs.map (fun r => r.areas.length)) 0 := by
    intro rs
    rw [get_areas_mkDoc_ok s rs hs, keysOf, mkRows_keys_rows]
  exact ⟨hkeys recs, by rw [hkeys recs, hkeys recs', hshape]⟩

/-- Witness for C6: two shape-`[1, 2]` documents with entirely different
identifiers, coordinates and products get the same anchors
`r1c1, r2c1, r2c2`. -/
theorem spec_C6_positional_anchors_witness :
    keysOf (get_areas (mkDoc 2 [⟨.str "A", [⟨.num 1, .num 2, .arr []⟩]⟩,
        ⟨.num 3, [⟨.num 5, .num 6, .arr [.str "x"]⟩, ⟨.num 7, .num 8, .arr []⟩]⟩])) =
      anchorsFrom (([⟨.str "A", [⟨.num 1, .num 2, .arr []⟩]⟩,
        ⟨.num 3, [⟨.num 5, .num 6, .arr [.str "x"]⟩, ⟨.num 7, .num 8, .arr []⟩]⟩] :
          List RecordData).map (fun r => r.areas.length)) 0 ∧
    keysOf (get_areas (mkDoc 2 [⟨.str "A", [⟨.num 1, .num 2, .arr []⟩]⟩,
        ⟨.num 3, [⟨.num 5, .num 6, .arr [.str "x"]⟩, ⟨.num 7, .num 8, .arr []⟩]⟩])) =
      keysOf (get_areas (mkDoc 2 [⟨.str "B", [⟨.num 9, .num 9, .arr [.str "y"]⟩]⟩,
        ⟨.null, [⟨.num 0, .num 0, .arr []⟩, ⟨.num 1, .num 1, .null⟩]⟩])) :=
  spec_C6_positional_anchors 2
    [⟨.str "A", [⟨.num 1, .num 2, .arr []⟩]⟩,
      ⟨.num 3, [⟨.num 5, .num 6, .arr [.str "x"]⟩, ⟨.num 7, .num 8, .arr []⟩]⟩]
    [⟨.str "B", [⟨.num 9, .num 9, .arr [.str "y"]⟩]⟩,
      ⟨.null, [⟨.num 0, .num 0, .arr []⟩, ⟨.num 1, .num 1, .null⟩]⟩]
    (by decide) rfl

/-! ## Claim about the data file -/

/-- The specification-side enrichment of one area during rendering: the
`anchor` field is the record name, periods replaced by hyphens, a hyphen,
and the area's start coordinate; a non-string name admits no anchor. -/
def enrichAreaSpec (name : PyKey) (a : MergedArea) : Option EnrichedArea :=
  match name with
  | .str s => some ⟨a.start, a.end_, a.products, a.bubbles,
      pyReplace s "." "-" ++ "-" ++ pyStr a.start⟩
  | _ => none

/-- The specification-side enrichment of one record. -/
def enrichRecordSpec (r : MergedRecord) : Option EnrichedRecord :=
  (r.areas.mapM (enrichAreaSpec r.name)).map (fun eas => ⟨r.name, eas⟩)

/-- A successful pass over one area produces exactly the specification's
enriched area. -/
theorem processArea_spec {name : PyKey} {a : MergedArea} {html : String} {ea : EnrichedArea}
    (h : processArea name a = .ok (html, ea)) : enrichAreaSpec name a = some ea := by
  match name with
  | .null => exact absurd h (by simp [processArea])
  | .bool b => exact absurd h (by simp [processArea])
  | .num n => exact absurd h (by simp [processArea])
  | .str s =>
      rw [processArea] at h
      simp only [exBind_ok] at h
      match hj : pyJoinStrs ", " a.products with
      | .error e => rw [hj] at h; exact absurd h (by simp)
      | .ok prods =>
          rw [hj] at h
          simp only [exBind_ok] at h
          obtain ⟨-, rfl⟩ : _ ∧ (⟨a.start, a.end_, a.products, a.bubbles,
              pyReplace s "." "-" ++ "-" ++ pyStr a.start⟩ : EnrichedArea) = ea := by
            simpa using h
          rfl

/-- A successful pass over a record's areas produces exactly the
specification's enriched areas. -/
theorem processAreas_spec {name : PyKey} : ∀ {as : List MergedArea} {html : String}
    {eas : List EnrichedArea}, processAreas name as = .ok (html, eas) →
    as.mapM (enrichAreaSpec name) = some eas
  | [], html, eas, h => by
      obtain ⟨-, rfl⟩ : ("" : String) = html ∧ ([] : List EnrichedArea) = eas := by
        simpa [processAreas] using h
      rfl
  | a :: rest, html, eas, h => by
      rw [processAreas] at h
      match ha : processArea name a with
      | .error e => rw [ha] at h; exact absurd h (by simp)
      | .ok (h1, ea) =>
          rw [ha] at h
          simp only [exBind_ok] at h
          match hr : processAreas name rest with
          | .error e => rw [hr] at h; exact absurd h (by simp)
          | .ok (h2, eas') =>
              rw [hr] at h
              simp only [exBind_ok] at h
              obtain ⟨-, rfl⟩ : h1 ++ h2 = html ∧ ea :: eas' = eas := by simpa using h
              rw [List.mapM_cons, processArea_spec ha, processAreas_spec hr]
              rfl

/-- A successful rendering pass produces exactly the specification's
enriched record list. -/
theorem processRecords_spec : ∀ {rs : List MergedRecord} {html : String}
    {ers : List EnrichedRecord}, processRecords rs = .ok (html, ers) →
    rs.mapM enrichRecordSpec = some ers
  | [], html, ers, h => by
      obtain ⟨-, rfl⟩ : ("" : String) = html ∧ ([] : List EnrichedRecord) = ers := by
        simpa [processRecords] using h
      rfl
  | r :: rest, html, ers, h => by
      rw [processRecords] at h
      match ha : processAreas r.name r.areas with
      | .error e => rw [ha] at h; exact absurd h (by simp)
      | .ok (h1, eas) =>
          rw [ha] at h
          simp only [exBind_ok] at h
          match hr : processRecords rest with
          | .error e => rw [hr] at h; exact absurd h (by simp)
          | .ok (h2, ers') =>
              rw [hr] at h
              simp only [exBind_ok] at h
              obtain ⟨-, rfl⟩ : h1 ++ h2 = html ∧
                  (⟨r.name, eas⟩ : EnrichedRecord) :: ers' = ers := by simpa using h
              rw [List.mapM_cons, processRecords_spec hr, enrichRecordSpec,
                processAreas_spec ha]
              rfl

/-- Claim C7: whenever `generate_page` renders an aggregated record list,
the `data.js` content it writes is exactly the fixed prefix `var data = `,
then the `indent=1` JSON serialization of the record list with the
`anchor` field added to every area during the same rendering pass, then a
single `;`. -/
theorem spec_C7_data_file {rs : List MergedRecord} {html data : String}
    (h : generate_page_strings rs = .ok (html, data)) :
    ∃ er : List EnrichedRecord, rs.mapM enrichRecordSpec = some er ∧
      data = "var data = " ++ dumpVal 1 0 (enrichedJson er) ++ ";" := by
  rw [generate_page_strings] at h
  match hp : processRecords rs with
  | .error e => rw [hp] at h; exact absurd h (by simp)
  | .ok (body, enriched) =>
      rw [hp] at h
      simp only [exBind_ok] at h
      obtain ⟨-, rfl⟩ : HTML_TOP ++ body ++ HTML_BOTTOM = html ∧
          "var data = " ++ dumpVal 1 0 (enrichedJson enriched) ++ ";" = data := by
        simpa using h
      exact ⟨enriched, processRecords_spec hp, rfl⟩

/-- The output pair of the rendering on the witness input. -/
def c7Pair : String × String :=
  ((generate_page_strings
      [⟨.str "A.x", [⟨.num 1, .num 2, .arr [.str "pks"], .num 7⟩]⟩]).toOption).getD ("", "")

/-- Witness for C7 at a concrete record list (a dotted record name and one
area with products and a bubble payload). -/
theorem spec_C7_data_file_witness :
    ∃ er : List EnrichedRecord,
      ([⟨.str "A.x", [⟨.num 1, .num 2, .arr [.str "pks"], .num 7⟩]⟩] :
        List MergedRecord).mapM enrichRecordSpec = some er ∧
      c7Pair.2 = "var data = " ++ dumpVal 1 0 (enrichedJson er) ++ ";" :=
  @spec_C7_data_file [⟨.str "A.x", [⟨.num 1, .num 2, .arr [.str "pks"], .num 7⟩]⟩]
    c7Pair.1 c7Pair.2 rfl
